import Mathlib

/-!
Shallow embedding of the incremental import and merge engine of
`body_comp_tracking` (file `data_sources/withings_source.py`), together with
its OAuth token lifecycle, and proofs of the specification claims about it.

Modelling conventions:
* timestamps are epoch seconds (`Nat`); the store's date column is printed and
  re-parsed at second precision, so `Nat` is a faithful key type;
* numeric measurement values are rationals (`ℚ`); the source only produces
  finite floats on the paths verified here (the NaN/infinity guards of
  `_get_formatted_metric` / `_format_optional_metric` are vacuous on `ℚ`,
  matching the claims, which are restricted to finite values);
* a Python `dict` is represented as an association list with Python's
  assignment semantics (`dictInsert` overwrites the first matching key and
  otherwise appends); where only the set of keys matters (sorting on write,
  the round-trip statement) the key list is read through `List.dedup` /
  `List.toFinset`, both the identity on the duplicate-free key lists an
  actual `dict` produces;
* a CSV cell is abstracted to its parse behaviour: empty, a numeric literal
  with a given rational value, or malformed text on which `float` raises.
-/

set_option allowUnsafeReducibility true in
attribute [semireducible] Rat.mul Rat.add Rat.sub Rat.div Rat.inv Rat.blt Rat.neg

deriving instance DecidableEq for Except

namespace BodyComp

/-! ### Association-list model of Python dicts -/

/-- Lookup in a dict modelled as an association list (first match wins). -/
def dictLookup {κ α : Type} [DecidableEq κ] (k : κ) : List (κ × α) → Option α
  | [] => none
  | (k', v) :: rest => if k' = k then some v else dictLookup k rest

/-- Python dict assignment `d[k] = v`: overwrite the first binding of `k`,
or append a new binding. -/
def dictInsert {κ α : Type} [DecidableEq κ] (k : κ) (v : α) :
    List (κ × α) → List (κ × α)
  | [] => [(k, v)]
  | (k', w) :: rest =>
      if k' = k then (k', v) :: rest else (k', w) :: dictInsert k v rest

/-- The key list of a dict. -/
def dictKeys {κ α : Type} (d : List (κ × α)) : List κ := d.map Prod.fst

/-! ### Measurement data model -/

/-- One measurement dict, as built by the import pipeline.  The Python code
uses string-keyed dicts but only ever touches these six keys; a missing key is
`none`.  `fat_free_mass_kg` is the temporary key used by the incremental
pipeline for vendor type 5 before the muscle-mass correction. -/
structure MData where
  weight_kg : Option ℚ := none
  fat_mass_kg : Option ℚ := none
  bone_mass_kg : Option ℚ := none
  muscle_mass_kg : Option ℚ := none
  hydration_kg : Option ℚ := none
  fat_free_mass_kg : Option ℚ := none
deriving DecidableEq, Repr

/-- The empty measurement dict `{}`. -/
def MData.empty : MData := {}

/-- A dict from timestamps to measurement dicts. -/
abbrev MDict := List (Nat × MData)

/-- One raw vendor measure entry `{type, value, unit}`. -/
structure Measure where
  type : Int
  value : Int
  unit : Int
deriving DecidableEq, Repr

/-- One vendor measurement group: a date with its measures. -/
structure MeasureGroup where
  date : Nat
  measures : List Measure
deriving DecidableEq, Repr

/-- Vendor unit scaling: `value * (10 ** unit)`. -/
def scaleMeasure (m : Measure) : ℚ := (m.value : ℚ) * (10 : ℚ) ^ m.unit

/-! ### CSV line model -/

/-- A CSV cell, abstracted to its `float(...)` parse behaviour. -/
inductive Cell where
  | empty : Cell
  | num : ℚ → Cell
  | malformed : Cell
deriving DecidableEq, Repr

/-- The date field of a line: either it parses under
`strptime(_, "%Y-%m-%d %H:%M:%S")` to a second-precision instant, or
`strptime` raises `ValueError`. -/
inductive DateField where
  | ok : Nat → DateField
  | bad : DateField
deriving DecidableEq, Repr

/-- One line of the store file: blank (only whitespace), or a row made of a
date field followed by the remaining comma-separated cells. -/
inductive Line where
  | blank : Line
  | row : DateField → List Cell → Line
deriving DecidableEq, Repr

/-- The header line `Date,"Weight (kg)",...` — its first field is the text
`Date`, on which `strptime` raises, so it behaves as a row with a bad date. -/
def headerLine : Line := .row .bad []

/-- `float(parts[i]) if parts[i] else None`: an empty cell is `None`, a numeric
cell parses, a malformed cell raises (`none` result). -/
def parseCell : Cell → Option (Option ℚ)
  | .empty => some none
  | .num q => some (some q)
  | .malformed => none

/-! ### `_map_measurement_type` / `_map_measurement_type_for_incremental` -/

/-- `_map_measurement_type` (full import): vendor type 5 is stored directly
under `muscle_mass_kg`; unknown types are discarded. -/
def map_measurement_type (d : MData) (ty : Int) (v : ℚ) : MData :=
  if ty = 1 then { d with weight_kg := some v }
  else if ty = 8 then { d with fat_mass_kg := some v }
  else if ty = 88 then { d with bone_mass_kg := some v }
  else if ty = 5 then { d with muscle_mass_kg := some v }
  else if ty = 77 then { d with hydration_kg := some v }
  else d

/-- `_map_measurement_type_for_incremental`: vendor type 5 is kept under the
separate `fat_free_mass_kg` key; unknown types are discarded. -/
def map_measurement_type_for_incremental (d : MData) (ty : Int) (v : ℚ) : MData :=
  if ty = 1 then { d with weight_kg := some v }
  else if ty = 8 then { d with fat_mass_kg := some v }
  else if ty = 88 then { d with bone_mass_kg := some v }
  else if ty = 5 then { d with fat_free_mass_kg := some v }
  else if ty = 77 then { d with hydration_kg := some v }
  else d

/-! ### Grouping the API response by timestamp -/

/-- Process one measurement group into the accumulated dict: initialise the
timestamp's dict if missing, then fold the group's measures through the given
type mapping. -/
def processGroup (mapFn : MData → Int → ℚ → MData) (acc : MDict)
    (g : MeasureGroup) : MDict :=
  let base := (dictLookup g.date acc).getD MData.empty
  let updated := g.measures.foldl (fun d m => mapFn d m.type (scaleMeasure m)) base
  dictInsert g.date updated acc

/-- `_process_api_measurements` (full import). -/
def process_api_measurements (grps : List MeasureGroup) : MDict :=
  grps.foldl (processGroup map_measurement_type) []

/-- `_process_api_measurements_for_incremental`. -/
def process_api_measurements_for_incremental (grps : List MeasureGroup) : MDict :=
  grps.foldl (processGroup map_measurement_type_for_incremental) []

/-! ### Muscle-mass correction -/

/-- `_apply_muscle_mass_correction` body, per measurement dict (full import):
the `muscle_mass_kg` slot initially holds fat-free mass. -/
def correct_full (d : MData) : MData :=
  let fat_free_mass := d.muscle_mass_kg.getD 0
  let bone_mass_val := d.bone_mass_kg.getD 0
  if 0 < fat_free_mass then
    let actual_muscle_mass :=
      if 0 < bone_mass_val then fat_free_mass - bone_mass_val else fat_free_mass
    { d with muscle_mass_kg := some actual_muscle_mass }
  else
    { d with muscle_mass_kg := none }

/-- `_apply_muscle_mass_correction_for_incremental` body, per measurement
dict: reads `fat_free_mass_kg`, writes `muscle_mass_kg` only when fat-free
mass is positive, and always pops `fat_free_mass_kg`. -/
def correct_incremental (d : MData) : MData :=
  let fat_free_mass := d.fat_free_mass_kg.getD 0
  let bone_mass_val := d.bone_mass_kg.getD 0
  let actual_muscle_mass :=
    if 0 < bone_mass_val then fat_free_mass - bone_mass_val else fat_free_mass
  let d' :=
    if 0 < fat_free_mass then { d with muscle_mass_kg := some actual_muscle_mass }
    else d
  { d' with fat_free_mass_kg := none }

/-- `_apply_muscle_mass_correction_for_incremental` over the whole dict. -/
def apply_muscle_mass_correction_for_incremental (m : MDict) : MDict :=
  m.map fun tv => (tv.1, correct_incremental tv.2)

/-- `_apply_muscle_mass_correction` over the whole dict. -/
def apply_muscle_mass_correction (m : MDict) : MDict :=
  m.map fun tv => (tv.1, correct_full tv.2)

/-- `_fetch_measurements_from_api`, given the decoded `measuregrps` of the
API response: group by timestamp, then apply the muscle-mass correction. -/
def fetch_measurements_from_api (grps : List MeasureGroup) : MDict :=
  apply_muscle_mass_correction_for_incremental
    (process_api_measurements_for_incremental grps)

/-! ### Formatting and writing the store -/

/-- Rounding to two decimals, the value a `f"{v:.2f}"` cell parses back to. -/
def round2 (q : ℚ) : ℚ := (round (q * 100) : ℚ) / 100

/-- `_format_optional_metric`: a missing value prints as the empty cell, a
present (finite) value prints as a numeric literal with two decimals. -/
def format_optional_metric : Option ℚ → Cell
  | none => .empty
  | some v => .num (round2 v)

/-- `_get_formatted_metric` (full-import variant): identical behaviour on
finite values. -/
def get_formatted_metric : Option ℚ → Cell
  | none => .empty
  | some v => .num (round2 v)

/-- The data line written for one timestamp by
`_write_measurements_to_csv`: quoted date, the five formatted metric columns,
and the empty `Comments` column from the trailing comma. -/
def renderRow (fmt : Option ℚ → Cell) (t : Nat) (r : MData) : Line :=
  .row (.ok t)
    [fmt r.weight_kg, fmt r.fat_mass_kg, fmt r.bone_mass_kg,
     fmt r.muscle_mass_kg, fmt r.hydration_kg, .empty]

/-- The newest-first key order used on write:
`sorted(measurements.keys(), reverse=True)` — the distinct keys sorted
ascending, then reversed. -/
def sortedKeysDesc (m : MDict) : List Nat :=
  (List.insertionSort (· ≤ ·) (dictKeys m).dedup).reverse

/-- `_write_measurements_to_csv`: header line, then one line per timestamp in
reverse chronological order. -/
def write_measurements_to_csv (m : MDict) : List Line :=
  headerLine ::
    (sortedKeysDesc m).map fun t =>
      renderRow format_optional_metric t ((dictLookup t m).getD MData.empty)

/-- `_write_all_data_to_csv` (full import): same layout, using
`_get_formatted_metric`. -/
def write_all_data_to_csv (m : MDict) : List Line :=
  headerLine ::
    (sortedKeysDesc m).map fun t =>
      renderRow get_formatted_metric t ((dictLookup t m).getD MData.empty)

/-! ### Loading the existing store -/

/-- Parse the metric cells of a line whose `parts` are
`date :: cells` with `len(parts) >= 6`: builds the dict literal, any malformed
cell raising `ValueError` (result `none`). -/
def parseRowCells : List Cell → Option MData
  | c1 :: c2 :: c3 :: c4 :: c5 :: _ => do
      let w ← parseCell c1
      let f ← parseCell c2
      let b ← parseCell c3
      let m ← parseCell c4
      let h ← parseCell c5
      pure { weight_kg := w, fat_mass_kg := f, bone_mass_kg := b,
             muscle_mass_kg := m, hydration_kg := h }
  | _ => none

/-- Processing of one line by `_load_existing_csv_data`: a blank line is
skipped; an unparsable date raises before anything is recorded; a parsed date
is added to the timestamp set first, after which a short line
(`len(parts) < 6`) records no data and a `float` failure raises, in both
cases leaving the already-extended timestamp set in place. -/
def loadLine (acc : Finset Nat × MDict) : Line → Finset Nat × MDict
  | .blank => acc
  | .row .bad _ => acc
  | .row (.ok t) cells =>
      let ts := insert t acc.1
      if 5 ≤ cells.length then
        match parseRowCells cells with
        | some r => (ts, dictInsert t r acc.2)
        | none => (ts, acc.2)
      else (ts, acc.2)

/-- `_load_existing_csv_data`: a file with at most one line (header only or
empty) yields nothing; otherwise every line after the header is processed. -/
def load_existing_csv_data (lines : List Line) : Finset Nat × MDict :=
  if lines.length ≤ 1 then (∅, [])
  else lines.tail.foldl loadLine (∅, [])

/-! ### Merge and incremental import -/

/-- The loop body of `_merge_with_existing_data`: a fetched measurement is
added exactly when its timestamp is not in the existing timestamp set. -/
def mergeStep (existing_timestamps : Finset Nat) (acc : MDict)
    (tv : Nat × MData) : MDict :=
  if tv.1 ∈ existing_timestamps then acc else dictInsert tv.1 tv.2 acc

/-- `_merge_with_existing_data`: start from the loaded existing data (empty
when the file does not exist) and add each fetched measurement whose
timestamp is not in the existing timestamp set. -/
def merge_with_existing_data (existing : Option (List Line))
    (new_measurements : MDict) : MDict :=
  let loaded := match existing with
    | none => ((∅ : Finset Nat), ([] : MDict))
    | some lines => load_existing_csv_data lines
  new_measurements.foldl (mergeStep loaded.1) loaded.2

/-- `import_incremental_data_to_csv`, abstracted over the decoded API
response (the fetch window only affects which response the vendor returns):
an empty fetch returns 0 and leaves the file untouched; otherwise the merge
result is written and `len(new_measurements)` — the fetched count — is
returned. -/
def import_incremental_data_to_csv (existing : Option (List Line))
    (grps : List MeasureGroup) : Nat × Option (List Line) :=
  let new_measurements := fetch_measurements_from_api grps
  if new_measurements.isEmpty then (0, existing)
  else
    let all := merge_with_existing_data existing new_measurements
    (new_measurements.length, some (write_measurements_to_csv all))

/-- The effect of a write/load round trip on one stored measurement: every
present store column is rounded to two decimals, absent columns stay absent,
and `fat_free_mass_kg` is not a store column (it never survives a round
trip; the import pipeline has already popped it before writing). -/
def storeRound (r : MData) : MData :=
  { weight_kg := r.weight_kg.map round2
    fat_mass_kg := r.fat_mass_kg.map round2
    bone_mass_kg := r.bone_mass_kg.map round2
    muscle_mass_kg := r.muscle_mass_kg.map round2
    hydration_kg := r.hydration_kg.map round2
    fat_free_mass_kg := none }

/-- The timestamps of the data rows of a written file, in file order. -/
def dataDates (lines : List Line) : List Nat :=
  lines.filterMap fun l =>
    match l with
    | .row (.ok t) _ => some t
    | _ => none

/-! ### Token records and the token store -/

/-- An OAuth token record (a JSON object): the fields the code reads, each
optional.  `expires_at`/`expires_in` are epoch seconds / seconds. -/
structure TokenRec where
  access_token : Option String := none
  refresh_token : Option String := none
  expires_at : Option ℚ := none
  expires_in : Option ℚ := none
deriving DecidableEq, Repr

/-- The states of the token file on which `TokenStorage.load_token` returns
a value: missing (the `os.path.exists` check fails); decodable text that
`json.load` rejects with `json.JSONDecodeError`; a read failing with
`IOError` — these two being exactly the exception kinds the
`except (json.JSONDecodeError, IOError)` clause catches; valid JSON that is
not an object; or a JSON object decoded to a `TokenRec`.  A file whose raw
bytes do not decode as text is a further state on which the call raises
instead of returning; it is modelled by `TokenFileContent` below. -/
inductive TokenFile where
  | missing : TokenFile
  | jsonDecodeError : TokenFile
  | ioError : TokenFile
  | jsonNonDict : TokenFile
  | jsonDict : TokenRec → TokenFile
deriving DecidableEq, Repr

/-- `TokenStorage.load_token` on the non-raising file states: `None` when the
file is missing, when JSON decoding fails with `json.JSONDecodeError`, when
reading fails with `IOError`, or when the JSON value is not a dict; a dict is
returned as is.  The raising state is covered by `load_token_outcome`. -/
def load_token : TokenFile → Option TokenRec
  | .missing => none
  | .jsonDecodeError => none
  | .ioError => none
  | .jsonNonDict => none
  | .jsonDict t => some t

/-- The raw content of the token file: either bytes that decode as text,
leaving one of the `TokenFile` states, or bytes that do not decode as text —
on which `json.load` raises `UnicodeDecodeError`, a `ValueError` that is
neither a `json.JSONDecodeError` nor an `IOError`. -/
inductive TokenFileContent where
  | text : TokenFile → TokenFileContent
  | undecodableBytes : TokenFileContent
deriving DecidableEq, Repr

/-- The full outcome of `TokenStorage.load_token`: on undecodable bytes the
`UnicodeDecodeError` raised inside `json.load` is not matched by the
`except (json.JSONDecodeError, IOError)` clause and propagates to the caller
(the `error` outcome); on every text state the call returns its `load_token`
value. -/
def load_token_outcome : TokenFileContent → Except Unit (Option TokenRec)
  | .text f => .ok (load_token f)
  | .undecodableBytes => .error ()

/-- The `expires_at` normalisation performed after a successful exchange or
refresh: if `expires_at` is absent and `expires_in` present, set
`expires_at = now + expires_in`. -/
def normalizeExpiry (t : TokenRec) (now : ℚ) : TokenRec :=
  match t.expires_at, t.expires_in with
  | none, some ei => { t with expires_at := some (now + ei) }
  | _, _ => t

/-- `_is_token_expired`: no token means expired; a token without `expires_at`
is never expired; otherwise expired when within 60 seconds of `expires_at`. -/
def is_token_expired (tok : Option TokenRec) (now : ℚ) : Bool :=
  match tok with
  | none => true
  | some t =>
      match t.expires_at with
      | none => false
      | some e => decide (e - 60 < now)

/-- Failure modes of `get_token` (the `ValueError`s it raises). -/
inductive AuthFailure where
  | noToken : AuthFailure
  | refreshFailed : AuthFailure
deriving DecidableEq, Repr

/-- `refresh_token`, abstracted over the network outcome `net` (`some t` for a
successful exchange returning record `t`, `none` for any failure).  Raises
before touching storage when no refresh token is held; on network failure the
stored token is cleared and the error re-raised; on success the normalised
token is saved.  Returns the outcome and the resulting token-file state. -/
def refresh_token_fn (mem : Option TokenRec) (file : TokenFile)
    (net : Option TokenRec) (now : ℚ) : Except Unit TokenRec × TokenFile :=
  match mem with
  | none => (.error (), file)
  | some t =>
      match t.refresh_token with
      | none => (.error (), file)
      | some _ =>
          match net with
          | some nt =>
              let nt' := normalizeExpiry nt now
              (.ok nt', .jsonDict nt')
          | none => (.error (), .missing)

/-- `get_token`: load from storage when no token is held, raising when storage
has none; refresh when expired or near expiry, clearing the in-memory token
and raising when the refresh fails.  Returns the outcome, the new in-memory
token slot, and the resulting token-file state.  `get_token` never starts the
interactive authentication flow. -/
def get_token_fn (mem : Option TokenRec) (file : TokenFile)
    (net : Option TokenRec) (now : ℚ) :
    Except AuthFailure TokenRec × Option TokenRec × TokenFile :=
  let mem1 := match mem with
    | some t => some t
    | none => load_token file
  match mem1 with
  | none => (.error .noToken, none, file)
  | some t =>
      if is_token_expired (some t) now then
        match refresh_token_fn (some t) file net now with
        | (.ok t', file') => (.ok t', some t', file')
        | (.error _, file') => (.error .refreshFailed, none, file')
      else (.ok t, some t, file)

/-- The interactive part of `authenticate`: browser authorisation, local
callback and code exchange, abstracted to its outcome `ex` (`some t` for a
successful exchange, `none` for a timeout or a rejected exchange, which
raises without saving).  On success the normalised token is saved. -/
def interactive_auth (ex : Option TokenRec) (now : ℚ) (file : TokenFile) :
    Except Unit TokenRec × TokenFile :=
  match ex with
  | some tok =>
      let tok' := normalizeExpiry tok now
      (.ok tok', .jsonDict tok')
  | none => (.error (), file)

/-- `authenticate`: if a stored token loads, try a refresh first and return
its result on success; on refresh failure clear the stored token and fall
through to the full interactive flow, which is also used when nothing is
stored. -/
def authenticate_fn (file : TokenFile) (net : Option TokenRec)
    (ex : Option TokenRec) (now : ℚ) : Except Unit TokenRec × TokenFile :=
  match load_token file with
  | some t =>
      match refresh_token_fn (some t) file net now with
      | (.ok r, file') => (.ok r, file')
      | (.error _, _) => interactive_auth ex now .missing
  | none => interactive_auth ex now file

/-! ### The measurement request -/

/-- An HTTP response from the measurement endpoint: its status code, and the
decoded `body.measuregrps` of its JSON payload (`none` when the payload is
not valid JSON; absent keys decode to the empty list via `.get`). -/
structure HttpResponse where
  status : Nat
  json : Option (List MeasureGroup)
deriving DecidableEq, Repr

/-- The errors `_make_request` raises. -/
inductive ReqError where
  | invalidToken : ReqError
  | httpError : Nat → ReqError
  | invalidJson : ReqError
deriving DecidableEq, Repr

/-- `_make_request`, abstracted over the server as a sequence of responses:
`k` responses have been consumed so far.  The token is validated first
(raising without any network call when it lacks `access_token`); then exactly
one POST is made; `raise_for_status` raises on any status of 400 or above;
an unparsable payload raises afterwards.  There is no retry of any kind. -/
def make_request (token : TokenRec) (server : Nat → HttpResponse) (k : Nat) :
    Except ReqError (List MeasureGroup) × Nat :=
  if token.access_token.isNone then (.error .invalidToken, k)
  else
    let resp := server k
    if 400 ≤ resp.status then (.error (.httpError resp.status), k + 1)
    else
      match resp.json with
      | none => (.error .invalidJson, k + 1)
      | some grps => (.ok grps, k + 1)

/-- A decoded `BodyMeasurement` as built by `get_measurements`. -/
structure BodyMeasurement where
  timestamp : Nat
  weight_kg : Option ℚ := none
  body_fat_percent : Option ℚ := none
deriving DecidableEq, Repr

/-- The per-group decode of `get_measurements`: the dict comprehension
`{m["type"]: m["value"] * 10 ** m["unit"]}` (later duplicates win), read at
types 1 and 8. -/
def decodeGroup (g : MeasureGroup) : BodyMeasurement :=
  let measures : List (Int × ℚ) :=
    g.measures.foldl (fun acc m => dictInsert m.type (scaleMeasure m) acc) []
  { timestamp := g.date
    weight_kg := dictLookup 1 measures
    body_fat_percent := dictLookup 8 measures }

/-- `get_measurements`: a single `_make_request` call; any error — including
a 401 — propagates directly to the caller, with no retry and no session
invalidation.  Returns the outcome and the number of requests made. -/
def get_measurements (token : TokenRec) (server : Nat → HttpResponse) :
    Except ReqError (List BodyMeasurement) × Nat :=
  match make_request token server 0 with
  | (.ok grps, k) => (.ok (grps.map decodeGroup), k)
  | (.error e, k) => (.error e, k)

/-! ## Helper lemmas about the dict model -/

section DictLemmas

variable {κ α β : Type} [DecidableEq κ]

theorem dictLookup_dictInsert_self (k : κ) (v : α) (d : List (κ × α)) :
    dictLookup k (dictInsert k v d) = some v := by
  induction d with
  | nil => simp [dictInsert, dictLookup]
  | cons hd tl ih =>
      obtain ⟨k', w⟩ := hd
      by_cases h : k' = k
      · simp [dictInsert, dictLookup, h]
      · simp [dictInsert, dictLookup, h, ih]

theorem dictLookup_dictInsert_ne {k k' : κ} (h : k' ≠ k) (v : α)
    (d : List (κ × α)) :
    dictLookup k (dictInsert k' v d) = dictLookup k d := by
  induction d with
  | nil => simp [dictInsert, dictLookup, h]
  | cons hd tl ih =>
      obtain ⟨k'', w⟩ := hd
      by_cases h2 : k'' = k'
      · subst h2
        simp [dictInsert, dictLookup, h]
      · simp only [dictInsert, h2, if_false]
        by_cases h3 : k'' = k
        · simp [dictLookup, h3]
        · simp [dictLookup, h3, ih]

theorem dictLookup_eq_none_iff (k : κ) (d : List (κ × α)) :
    dictLookup k d = none ↔ k ∉ dictKeys d := by
  induction d with
  | nil => simp [dictLookup, dictKeys]
  | cons hd tl ih =>
      obtain ⟨k', w⟩ := hd
      by_cases h : k' = k
      · simp [dictLookup, dictKeys, h]
      · simp [dictLookup, dictKeys, h, ih, Ne.symm h]

theorem mem_dictKeys_of_dictLookup {k : κ} {d : List (κ × α)} {v : α}
    (h : dictLookup k d = some v) : k ∈ dictKeys d := by
  by_contra hk
  rw [← dictLookup_eq_none_iff] at hk
  simp [h] at hk

theorem mem_of_dictLookup_eq_some {k : κ} {d : List (κ × α)} {v : α}
    (h : dictLookup k d = some v) : (k, v) ∈ d := by
  induction d with
  | nil => simp [dictLookup] at h
  | cons hd tl ih =>
      obtain ⟨k', w⟩ := hd
      by_cases h2 : k' = k
      · subst h2
        simp [dictLookup] at h
        simp [h]
      · simp [dictLookup, h2] at h
        simp [ih h]

theorem dictKeys_dictInsert (k : κ) (v : α) (d : List (κ × α)) :
    dictKeys (dictInsert k v d) =
      if k ∈ dictKeys d then dictKeys d else dictKeys d ++ [k] := by
  induction d with
  | nil => simp [dictInsert, dictKeys]
  | cons hd tl ih =>
      obtain ⟨k', w⟩ := hd
      by_cases h : k' = k
      · subst h
        simp [dictInsert, dictKeys]
      · simp only [dictInsert, h, if_false, dictKeys, List.map_cons] at ih ⊢
        by_cases h2 : k ∈ List.map Prod.fst tl
        · simp [ih, h2, Ne.symm h]
        · simp [ih, h2, Ne.symm h]

theorem mem_dictKeys_dictInsert (a k : κ) (v : α) (d : List (κ × α)) :
    a ∈ dictKeys (dictInsert k v d) ↔ a = k ∨ a ∈ dictKeys d := by
  rw [dictKeys_dictInsert]
  split_ifs with h
  · constructor
    · exact fun ha => Or.inr ha
    · rintro (rfl | ha)
      · exact h
      · exact ha
  · simp
    tauto

theorem nodup_dictKeys_dictInsert (k : κ) (v : α) {d : List (κ × α)}
    (h : (dictKeys d).Nodup) : (dictKeys (dictInsert k v d)).Nodup := by
  rw [dictKeys_dictInsert]
  split_ifs with h2
  · exact h
  · simp [List.nodup_append, h, h2]

theorem forall_mem_dictInsert {Q : κ × α → Prop} {d : List (κ × α)}
    (hd : ∀ x ∈ d, Q x) {k : κ} {v : α} (hv : Q (k, v)) :
    ∀ x ∈ dictInsert k v d, Q x := by
  induction d with
  | nil => simpa [dictInsert]
  | cons hd' tl ih =>
      obtain ⟨k', w⟩ := hd'
      by_cases h : k' = k
      · subst h
        intro x hx
        simp [dictInsert] at hx
        rcases hx with hx | hx
        · subst hx; exact hv
        · exact hd x (by simp [hx])
      · intro x hx
        simp [dictInsert, h] at hx
        rcases hx with hx | hx
        · subst hx; exact hd (k', w) (by simp)
        · exact ih (fun y hy => hd y (by simp [hy])) x hx

theorem dictLookup_map_value (g : α → β) (k : κ) (d : List (κ × α)) :
    dictLookup k (d.map fun x => (x.1, g x.2)) = (dictLookup k d).map g := by
  induction d with
  | nil => simp [dictLookup]
  | cons hd tl ih =>
      obtain ⟨k', w⟩ := hd
      by_cases h : k' = k
      · simp [dictLookup, h]
      · simp [dictLookup, h, ih]

omit [DecidableEq κ] in
theorem dictKeys_map_value (g : α → β) (d : List (κ × α)) :
    dictKeys (d.map fun x => (x.1, g x.2)) = dictKeys d := by
  simp [dictKeys, List.map_map]

end DictLemmas

/-! ## Helper lemmas about the merge loop -/

theorem foldl_mergeStep_lookup_of_not_mem {ts : Finset Nat} {t : Nat}
    {l : MDict} (h : t ∉ dictKeys l) (acc : MDict) :
    dictLookup t (l.foldl (mergeStep ts) acc) = dictLookup t acc := by
  induction l generalizing acc with
  | nil => rfl
  | cons tv rest ih =>
      have ht : tv.1 ≠ t := by
        intro he
        exact h (by simp [dictKeys, he])
      have hrest : t ∉ dictKeys rest := fun hm => h (by simp [dictKeys] at hm ⊢; tauto)
      rw [List.foldl_cons, ih hrest]
      unfold mergeStep
      split_ifs with h2
      · rfl
      · exact dictLookup_dictInsert_ne ht tv.2 acc

theorem foldl_mergeStep_lookup_of_mem_ts {ts : Finset Nat} {t : Nat}
    (h : t ∈ ts) (l : MDict) (acc : MDict) :
    dictLookup t (l.foldl (mergeStep ts) acc) = dictLookup t acc := by
  induction l generalizing acc with
  | nil => rfl
  | cons tv rest ih =>
      rw [List.foldl_cons, ih]
      unfold mergeStep
      split_ifs with h2
      · rfl
      · have ht : tv.1 ≠ t := fun he => h2 (he ▸ h)
        exact dictLookup_dictInsert_ne ht tv.2 acc

theorem foldl_mergeStep_lookup_new {ts : Finset Nat} {t : Nat} {v : MData}
    {l : MDict} (h1 : t ∉ ts) (h2 : (dictKeys l).Nodup)
    (h3 : dictLookup t l = some v) (acc : MDict) :
    dictLookup t (l.foldl (mergeStep ts) acc) = some v := by
  induction l generalizing acc with
  | nil => simp [dictLookup] at h3
  | cons tv rest ih =>
      obtain ⟨k, w⟩ := tv
      simp only [dictKeys, List.map_cons, List.nodup_cons] at h2
      by_cases he : k = t
      · subst he
        simp only [dictLookup, if_pos] at h3
        rw [List.foldl_cons]
        have hrest : k ∉ dictKeys rest := h2.1
        rw [foldl_mergeStep_lookup_of_not_mem hrest]
        unfold mergeStep
        simp only [if_neg h1]
        rw [dictLookup_dictInsert_self]
        simpa using h3
      · simp only [dictLookup, if_neg he] at h3
        rw [List.foldl_cons]
        exact ih h2.2 h3 _

theorem foldl_mergeStep_of_all_mem {ts : Finset Nat} {l : MDict}
    (h : ∀ tv ∈ l, tv.1 ∈ ts) (acc : MDict) :
    l.foldl (mergeStep ts) acc = acc := by
  induction l generalizing acc with
  | nil => rfl
  | cons tv rest ih =>
      rw [List.foldl_cons]
      have h1 : tv.1 ∈ ts := h tv (by simp)
      unfold mergeStep
      rw [if_pos h1]
      exact ih (fun x hx => h x (by simp [hx])) acc

/-! ## Helper lemmas about the fetch pipeline -/

theorem nodup_dictKeys_processGroup (mapFn : MData → Int → ℚ → MData)
    {acc : MDict} (h : (dictKeys acc).Nodup) (g : MeasureGroup) :
    (dictKeys (processGroup mapFn acc g)).Nodup :=
  nodup_dictKeys_dictInsert _ _ h

theorem nodup_dictKeys_foldl_processGroup (mapFn : MData → Int → ℚ → MData)
    (grps : List MeasureGroup) {acc : MDict} (h : (dictKeys acc).Nodup) :
    (dictKeys (grps.foldl (processGroup mapFn) acc)).Nodup := by
  induction grps generalizing acc with
  | nil => exact h
  | cons g rest ih => exact ih (nodup_dictKeys_processGroup mapFn h g)

theorem nodup_dictKeys_fetch (grps : List MeasureGroup) :
    (dictKeys (fetch_measurements_from_api grps)).Nodup := by
  unfold fetch_measurements_from_api apply_muscle_mass_correction_for_incremental
  rw [dictKeys_map_value]
  exact nodup_dictKeys_foldl_processGroup _ grps (by simp [dictKeys])

theorem muscle_map_measurement_type_for_incremental (d : MData) (ty : Int)
    (v : ℚ) :
    (map_measurement_type_for_incremental d ty v).muscle_mass_kg =
      d.muscle_mass_kg := by
  unfold map_measurement_type_for_incremental
  split_ifs <;> rfl

theorem muscle_foldl_measures (ms : List Measure) (base : MData) :
    (ms.foldl
        (fun d m =>
          map_measurement_type_for_incremental d m.type (scaleMeasure m))
        base).muscle_mass_kg = base.muscle_mass_kg := by
  induction ms generalizing base with
  | nil => rfl
  | cons m rest ih =>
      rw [List.foldl_cons, ih, muscle_map_measurement_type_for_incremental]

theorem muscle_none_process_incremental (grps : List MeasureGroup) :
    ∀ tv ∈ process_api_measurements_for_incremental grps,
      tv.2.muscle_mass_kg = none := by
  unfold process_api_measurements_for_incremental
  have main : ∀ (gs : List MeasureGroup) (acc : MDict),
      (∀ tv ∈ acc, tv.2.muscle_mass_kg = none) →
      ∀ tv ∈ gs.foldl (processGroup map_measurement_type_for_incremental) acc,
        tv.2.muscle_mass_kg = none := by
    intro gs
    induction gs with
    | nil => intro acc hacc; simpa using hacc
    | cons g rest ih =>
        intro acc hacc
        rw [List.foldl_cons]
        apply ih
        unfold processGroup
        apply forall_mem_dictInsert hacc
        rw [muscle_foldl_measures]
        rcases hbase : dictLookup g.date acc with _ | d0
        · simp [MData.empty]
        · simpa using hacc _ (mem_of_dictLookup_eq_some hbase)
  exact main grps [] (by simp)

/-! ## Helper lemmas about the load phase -/

theorem loadLine_fst_subset (acc : Finset Nat × MDict) (l : Line) :
    acc.1 ⊆ (loadLine acc l).1 := by
  cases l with
  | blank => exact Finset.Subset.refl _
  | row df cells =>
      cases df with
      | bad => exact Finset.Subset.refl _
      | ok t =>
          simp only [loadLine]
          split_ifs
          · rcases h : parseRowCells cells with _ | r <;>
              simp [h, Finset.subset_insert]
          · simp [Finset.subset_insert]

theorem foldl_loadLine_fst_subset (lines : List Line)
    (acc : Finset Nat × MDict) :
    acc.1 ⊆ (lines.foldl loadLine acc).1 := by
  induction lines generalizing acc with
  | nil => exact Finset.Subset.refl _
  | cons l rest ih =>
      exact (loadLine_fst_subset acc l).trans (ih (loadLine acc l))

theorem mem_loadLine_fst_self (acc : Finset Nat × MDict) (t : Nat)
    (cells : List Cell) : t ∈ (loadLine acc (.row (.ok t) cells)).1 := by
  simp only [loadLine]
  split_ifs
  · rcases h : parseRowCells cells with _ | r <;> simp [h]
  · simp

theorem mem_foldl_loadLine_fst {t : Nat} {cells : List Cell}
    {lines : List Line} (h : Line.row (.ok t) cells ∈ lines)
    (acc : Finset Nat × MDict) : t ∈ (lines.foldl loadLine acc).1 := by
  induction lines generalizing acc with
  | nil => simp at h
  | cons l rest ih =>
      rw [List.foldl_cons]
      rcases List.mem_cons.mp h with h1 | h1
      · subst h1
        exact foldl_loadLine_fst_subset rest _ (mem_loadLine_fst_self acc t cells)
      · exact ih h1 _

/-- A line is data-malformed when it has fewer than six comma-separated
fields or one of its numeric fields fails to parse. -/
def badCells (cells : List Cell) : Prop :=
  cells.length < 5 ∨ parseRowCells cells = none

theorem foldl_loadLine_lookup_of_bad {t : Nat} {lines : List Line}
    (h : ∀ cs, Line.row (.ok t) cs ∈ lines → badCells cs)
    (acc : Finset Nat × MDict) :
    dictLookup t (lines.foldl loadLine acc).2 = dictLookup t acc.2 := by
  induction lines generalizing acc with
  | nil => rfl
  | cons l rest ih =>
      rw [List.foldl_cons]
      have hrest : ∀ cs, Line.row (.ok t) cs ∈ rest → badCells cs :=
        fun cs hcs => h cs (by simp [hcs])
      rw [ih hrest]
      cases l with
      | blank => rfl
      | row df cells =>
          cases df with
          | bad => rfl
          | ok t' =>
              by_cases he : t' = t
              · subst he
                have hb := h cells (by simp)
                simp only [loadLine]
                rcases hb with hb | hb
                · rw [if_neg (by omega)]
                · split_ifs
                  · rw [hb]
                  · rfl
              · simp only [loadLine]
                split_ifs
                · rcases hp : parseRowCells cells with _ | r
                  · rfl
                  · exact dictLookup_dictInsert_ne he r acc.2
                · rfl

/-! ## Helper lemmas about the write phase and round trip -/

theorem parseCell_format (x : Option ℚ) :
    parseCell (format_optional_metric x) = some (x.map round2) := by
  cases x <;> rfl

theorem parseRowCells_renderRow (r : MData) :
    parseRowCells
        [format_optional_metric r.weight_kg,
         format_optional_metric r.fat_mass_kg,
         format_optional_metric r.bone_mass_kg,
         format_optional_metric r.muscle_mass_kg,
         format_optional_metric r.hydration_kg, .empty] =
      some (storeRound r) := by
  simp [parseRowCells, parseCell_format, storeRound, Option.bind]

theorem loadLine_renderRow (acc : Finset Nat × MDict) (t : Nat) (r : MData) :
    loadLine acc (renderRow format_optional_metric t r) =
      (insert t acc.1, dictInsert t (storeRound r) acc.2) := by
  simp only [renderRow, loadLine]
  rw [if_pos (by simp), parseRowCells_renderRow]

theorem foldl_loadLine_render_skip (keys : List Nat) (m : MDict)
    (acc : Finset Nat × MDict) {t : Nat} (h : t ∉ keys) :
    dictLookup t
        (((keys.map fun s =>
              renderRow format_optional_metric s
                ((dictLookup s m).getD MData.empty))).foldl loadLine acc).2 =
      dictLookup t acc.2 := by
  induction keys generalizing acc with
  | nil => rfl
  | cons k rest ih =>
      rw [List.map_cons, List.foldl_cons, loadLine_renderRow]
      have hk : k ≠ t := fun he => h (by simp [he])
      rw [ih _ (fun hm => h (by simp [hm]))]
      exact dictLookup_dictInsert_ne hk _ acc.2

theorem foldl_loadLine_render_fst (keys : List Nat) (m : MDict)
    (acc : Finset Nat × MDict) :
    (((keys.map fun s =>
          renderRow format_optional_metric s
            ((dictLookup s m).getD MData.empty))).foldl loadLine acc).1 =
      acc.1 ∪ keys.toFinset := by
  induction keys generalizing acc with
  | nil => simp
  | cons k rest ih =>
      rw [List.map_cons, List.foldl_cons, loadLine_renderRow, ih]
      ext a
      simp


theorem foldl_loadLine_render_lookup {keys : List Nat} (hnd : keys.Nodup)
    (m : MDict) (acc : Finset Nat × MDict) {t : Nat} (ht : t ∈ keys) :
    dictLookup t
        (((keys.map fun s =>
              renderRow format_optional_metric s
                ((dictLookup s m).getD MData.empty))).foldl loadLine acc).2 =
      some (storeRound ((dictLookup t m).getD MData.empty)) := by
  induction keys generalizing acc with
  | nil => simp at ht
  | cons k rest ih =>
      rw [List.map_cons, List.foldl_cons, loadLine_renderRow]
      rcases List.mem_cons.mp ht with h1 | h1
      · subst h1
        rw [foldl_loadLine_render_skip rest m _ (List.nodup_cons.mp hnd).1]
        simp [dictLookup_dictInsert_self]
      · exact ih (List.nodup_cons.mp hnd).2 _ h1

/-! ## Helper lemmas about sort order -/

theorem nodup_sortedKeysDesc (m : MDict) : (sortedKeysDesc m).Nodup := by
  unfold sortedKeysDesc
  rw [List.nodup_reverse]
  exact ((List.perm_insertionSort _ _).nodup_iff).mpr (List.nodup_dedup _)

theorem sorted_gt_sortedKeysDesc (m : MDict) :
    List.Sorted (· > ·) (sortedKeysDesc m) := by
  have hs : List.Sorted (· ≤ ·)
      (List.insertionSort (· ≤ ·) (dictKeys m).dedup) :=
    List.sorted_insertionSort _ _
  have hnd : (List.insertionSort (· ≤ ·) (dictKeys m).dedup).Nodup := by
    have := nodup_sortedKeysDesc m
    unfold sortedKeysDesc at this
    exact List.nodup_reverse.mp this
  unfold sortedKeysDesc
  rw [List.Sorted, List.pairwise_reverse]
  exact hs.lt_of_le hnd

theorem mem_sortedKeysDesc (m : MDict) (t : Nat) :
    t ∈ sortedKeysDesc m ↔ t ∈ dictKeys m := by
  unfold sortedKeysDesc
  rw [List.mem_reverse, (List.perm_insertionSort _ _).mem_iff, List.mem_dedup]

theorem toFinset_sortedKeysDesc (m : MDict) :
    (sortedKeysDesc m).toFinset = (dictKeys m).toFinset := by
  ext a
  rw [List.mem_toFinset, mem_sortedKeysDesc, List.mem_toFinset]

theorem dataDates_header_cons (rest : List Line) :
    dataDates (headerLine :: rest) = dataDates rest := by
  simp [dataDates, headerLine]

theorem dataDates_map_render (fmt : Option ℚ → Cell) (g : Nat → MData)
    (l : List Nat) :
    dataDates (l.map fun t => renderRow fmt t (g t)) = l := by
  induction l with
  | nil => rfl
  | cons k rest ih => simp [dataDates, renderRow] at ih ⊢; exact ih

theorem dataDates_write_measurements (m : MDict) :
    dataDates (write_measurements_to_csv m) = sortedKeysDesc m := by
  unfold write_measurements_to_csv
  rw [dataDates_header_cons, dataDates_map_render]

theorem dataDates_write_all (m : MDict) :
    dataDates (write_all_data_to_csv m) = sortedKeysDesc m := by
  unfold write_all_data_to_csv
  rw [dataDates_header_cons, dataDates_map_render]

/-! ## Claim theorems -/

/-- C1 (amended): the value returned by `import_incremental_data_to_csv` is
the number of distinct timestamps in the fetched response — `len` of the
fetched dict — regardless of how many rows were newly added; in particular,
when every fetched timestamp is already in the existing store's timestamp
set, the merge leaves the loaded store data exactly unchanged, yet the call
still returns the fetched count. -/
theorem C1_import_returns_fetched_count (existing : Option (List Line))
    (grps : List MeasureGroup) (lines : List Line)
    (hall : ∀ tv ∈ fetch_measurements_from_api grps,
        tv.1 ∈ (load_existing_csv_data lines).1) :
    (import_incremental_data_to_csv existing grps).1 =
      (fetch_measurements_from_api grps).length ∧
    merge_with_existing_data (some lines) (fetch_measurements_from_api grps) =
      (load_existing_csv_data lines).2 := by
  constructor
  · by_cases h : (fetch_measurements_from_api grps).isEmpty
    · simp [import_incremental_data_to_csv, h, List.isEmpty_iff.mp h]
    · simp [import_incremental_data_to_csv, h]
  · exact foldl_mergeStep_of_all_mem hall _

/-- C1 witness: a store holding exactly the timestamp 1000 and a fetch whose
only timestamp is 1000: the import returns 1 even though the merge result is
the loaded store data unchanged. -/
theorem C1_import_returns_fetched_count_witness :
    (import_incremental_data_to_csv
        (some [headerLine,
          Line.row (.ok 1000) [.num 70, .empty, .empty, .empty, .empty, .empty]])
        [⟨1000, [⟨1, 70, 0⟩]⟩]).1 =
      (fetch_measurements_from_api [⟨1000, [⟨1, 70, 0⟩]⟩]).length ∧
    merge_with_existing_data
        (some [headerLine,
          Line.row (.ok 1000) [.num 70, .empty, .empty, .empty, .empty, .empty]])
        (fetch_measurements_from_api [⟨1000, [⟨1, 70, 0⟩]⟩]) =
      (load_existing_csv_data
        [headerLine,
          Line.row (.ok 1000) [.num 70, .empty, .empty, .empty, .empty, .empty]]).2 :=
  C1_import_returns_fetched_count _ _ _ (by decide)

/-- C1 counterexample: importing the identical non-empty vendor response a
second time in a row returns 1 — the fetched count — not 0, while leaving
the store file unchanged (0 rows were actually newly added). -/
theorem C1_counterexample :
    (import_incremental_data_to_csv
        (import_incremental_data_to_csv none [⟨1000, [⟨1, 70, 0⟩]⟩]).2
        [⟨1000, [⟨1, 70, 0⟩]⟩]) =
      (1, (import_incremental_data_to_csv none [⟨1000, [⟨1, 70, 0⟩]⟩]).2) := by
  decide

/-- C2 (amended): in the merge performed by `import_incremental_data_to_csv`,
the dedup key is membership in the loaded timestamp set — which contains the
timestamp of every store line whose date field parses, well formed or not.
For a timestamp in that set, the merged store keeps exactly the loaded row
data (the fetched values are discarded); for a timestamp not in the set, a
fetched record with that timestamp is added with its values unchanged, and a
timestamp fetched by neither side keeps the loaded value. -/
theorem C2_dedup_by_timestamp_set (lines : List Line)
    (grps : List MeasureGroup) (t : Nat) :
    (t ∈ (load_existing_csv_data lines).1 →
        dictLookup t
            (merge_with_existing_data (some lines)
              (fetch_measurements_from_api grps)) =
          dictLookup t (load_existing_csv_data lines).2) ∧
    (t ∉ (load_existing_csv_data lines).1 →
        ∀ v, dictLookup t (fetch_measurements_from_api grps) = some v →
          dictLookup t
              (merge_with_existing_data (some lines)
                (fetch_measurements_from_api grps)) = some v) ∧
    (t ∉ (load_existing_csv_data lines).1 →
        dictLookup t (fetch_measurements_from_api grps) = none →
        dictLookup t
            (merge_with_existing_data (some lines)
              (fetch_measurements_from_api grps)) =
          dictLookup t (load_existing_csv_data lines).2) :=
  ⟨fun h => foldl_mergeStep_lookup_of_mem_ts h _ _,
   fun h _ hv => foldl_mergeStep_lookup_new h (nodup_dictKeys_fetch grps) hv _,
   fun _ hv =>
     foldl_mergeStep_lookup_of_not_mem ((dictLookup_eq_none_iff _ _).mp hv) _⟩

/-- C2 witness: with one existing well-formed row at timestamp 50 and a
fetch containing timestamps 50 and 60, the merged store keeps the stored row
at 50 unchanged (the fetched weight 99 is discarded) and adds the fetched
row at 60. -/
theorem C2_dedup_by_timestamp_set_witness :
    dictLookup 50
        (merge_with_existing_data
          (some [headerLine,
            Line.row (.ok 50) [.num 80, .empty, .empty, .empty, .empty, .empty]])
          (fetch_measurements_from_api
            [⟨50, [⟨1, 99, 0⟩]⟩, ⟨60, [⟨1, 70, 0⟩]⟩])) =
      dictLookup 50
        (load_existing_csv_data
          [headerLine,
            Line.row (.ok 50) [.num 80, .empty, .empty, .empty, .empty, .empty]]).2 ∧
    dictLookup 60
        (merge_with_existing_data
          (some [headerLine,
            Line.row (.ok 50) [.num 80, .empty, .empty, .empty, .empty, .empty]])
          (fetch_measurements_from_api
            [⟨50, [⟨1, 99, 0⟩]⟩, ⟨60, [⟨1, 70, 0⟩]⟩])) =
      some { weight_kg := some 70 } :=
  ⟨(C2_dedup_by_timestamp_set _ _ 50).1 (by decide),
   (C2_dedup_by_timestamp_set _ _ 60).2.1 (by decide) _ (by decide)⟩

/-- C2 counterexample: the existing store's only line at timestamp 100 is
malformed (its weight field does not parse), so the store holds no
well-formed row at 100; the claim then requires a fetched record at 100 to
be added, but the merge discards it — the merged store has nothing at 100 at
all. -/
theorem C2_counterexample :
    dictLookup 100
        (load_existing_csv_data
          [headerLine,
            Line.row (.ok 100)
              [.malformed, .empty, .empty, .empty, .empty, .empty]]).2 = none ∧
    dictLookup 100
        (merge_with_existing_data
          (some [headerLine,
            Line.row (.ok 100)
              [.malformed, .empty, .empty, .empty, .empty, .empty]])
          (fetch_measurements_from_api [⟨100, [⟨1, 80, 0⟩]⟩])) = none := by
  decide

/-- C3: in the incremental pipeline, for every measurement dict produced by
grouping the API response: when fat-free mass (vendor type 5) is present and
positive, the corrected `muscle_mass_kg` is fat-free mass minus bone mass
when bone mass is present and positive, and fat-free mass unchanged
otherwise; when fat-free mass is absent the corrected dict has no
`muscle_mass_kg` at all; the fetch applies exactly this correction at every
timestamp.  The full-import correction satisfies the same two rules, with
fat-free mass arriving in the `muscle_mass_kg` slot. -/
theorem C3_muscle_mass_correction (grps : List MeasureGroup) (t : Nat)
    (d0 : MData)
    (h : dictLookup t (process_api_measurements_for_incremental grps) =
      some d0) :
    (∀ f, d0.fat_free_mass_kg = some f → 0 < f →
        (correct_incremental d0).muscle_mass_kg =
          some (match d0.bone_mass_kg with
                | some b => if 0 < b then f - b else f
                | none => f)) ∧
    (d0.fat_free_mass_kg = none →
        (correct_incremental d0).muscle_mass_kg = none) ∧
    dictLookup t (fetch_measurements_from_api grps) =
      some (correct_incremental d0) ∧
    (∀ d : MData, ∀ f, d.muscle_mass_kg = some f → 0 < f →
        (correct_full d).muscle_mass_kg =
          some (match d.bone_mass_kg with
                | some b => if 0 < b then f - b else f
                | none => f)) ∧
    (∀ d : MData, d.muscle_mass_kg = none →
        (correct_full d).muscle_mass_kg = none) := by
  refine ⟨?_, ?_, ?_, ?_, ?_⟩
  · intro f hf hpos
    unfold correct_incremental
    rw [hf]
    rcases hb : d0.bone_mass_kg with _ | b
    · simp [hpos]
    · by_cases hbpos : 0 < b
      · simp [hpos, hbpos]
      · simp [hpos, hbpos]
  · intro hf
    have hmus : d0.muscle_mass_kg = none :=
      muscle_none_process_incremental grps (t, d0) (mem_of_dictLookup_eq_some h)
    unfold correct_incremental
    rw [hf]
    simp [hmus]
  · unfold fetch_measurements_from_api apply_muscle_mass_correction_for_incremental
    rw [dictLookup_map_value, h]
    rfl
  · intro d f hf hpos
    unfold correct_full
    rw [hf]
    rcases hb : d.bone_mass_kg with _ | b
    · simp [hpos]
    · by_cases hbpos : 0 < b
      · simp [hpos, hbpos]
      · simp [hpos, hbpos]
  · intro d hf
    unfold correct_full
    rw [hf]
    simp

/-- C3 witness: fat-free mass 75.19 with bone mass 3.67 yields muscle mass
71.52; fat-free mass 74.00 with no bone mass yields 74.00. -/
theorem C3_muscle_mass_correction_witness :
    (correct_incremental
        { bone_mass_kg := some (367 / 100),
          fat_free_mass_kg := some (7519 / 100) }).muscle_mass_kg =
      some (7152 / 100) ∧
    (correct_incremental
        { fat_free_mass_kg := some 74 }).muscle_mass_kg = some 74 := by
  constructor
  · have h := (C3_muscle_mass_correction
      [⟨2000, [⟨5, 7519, -2⟩, ⟨88, 367, -2⟩]⟩] 2000
      { bone_mass_kg := some (367 / 100), fat_free_mass_kg := some (7519 / 100) }
      (by decide)).1 (7519 / 100) rfl (by norm_num)
    exact h.trans (by decide)
  · have h := (C3_muscle_mass_correction
      [⟨3000, [⟨5, 74, 0⟩]⟩] 3000 { fat_free_mass_kg := some 74 }
      (by decide)).1 74 rfl (by norm_num)
    exact h.trans (by decide)

/-- C4: for every input map of measurements, the data rows written by both
`_write_measurements_to_csv` and `_write_all_data_to_csv` are strictly
descending by timestamp — the first data row carries the largest
timestamp — and no two rows share a timestamp key. -/
theorem C4_sort_order (m m' : MDict) :
    (List.Sorted (· > ·) (dataDates (write_measurements_to_csv m)) ∧
      (dataDates (write_measurements_to_csv m)).Nodup) ∧
    (List.Sorted (· > ·) (dataDates (write_all_data_to_csv m')) ∧
      (dataDates (write_all_data_to_csv m')).Nodup) := by
  rw [dataDates_write_measurements, dataDates_write_all]
  exact ⟨⟨sorted_gt_sortedKeysDesc m, nodup_sortedKeysDesc m⟩,
    ⟨sorted_gt_sortedKeysDesc m', nodup_sortedKeysDesc m'⟩⟩

/-- C5: writing a measurement map with `_write_measurements_to_csv` and
reloading it with `_load_existing_csv_data` reproduces exactly the set of
timestamps, and at every stored timestamp the reloaded row is the original
with each present numeric field rounded to two decimals and each absent
field still absent. -/
theorem C5_round_trip (m : MDict) (t : Nat) (r : MData)
    (h : dictLookup t m = some r) :
    (load_existing_csv_data (write_measurements_to_csv m)).1 =
      (dictKeys m).toFinset ∧
    dictLookup t (load_existing_csv_data (write_measurements_to_csv m)).2 =
      some (storeRound r) := by
  have ht : t ∈ sortedKeysDesc m :=
    (mem_sortedKeysDesc m t).mpr (mem_dictKeys_of_dictLookup h)
  have hne : sortedKeysDesc m ≠ [] := fun he => by simp [he] at ht
  have hlen : ¬ (write_measurements_to_csv m).length ≤ 1 := by
    unfold write_measurements_to_csv
    simp only [List.length_cons, List.length_map]
    have := List.length_pos.mpr hne
    omega
  unfold load_existing_csv_data
  rw [if_neg hlen]
  have htail : (write_measurements_to_csv m).tail =
      (sortedKeysDesc m).map fun s =>
        renderRow format_optional_metric s ((dictLookup s m).getD MData.empty) := rfl
  rw [htail]
  constructor
  · rw [foldl_loadLine_render_fst]
    rw [Finset.empty_union, toFinset_sortedKeysDesc]
  · rw [foldl_loadLine_render_lookup (nodup_sortedKeysDesc m) m _ ht, h]
    rfl

/-- C5 witness: a one-row map at timestamp 5 with weight 123.456 and bone
mass 2 round-trips to the timestamp set {5} with weight rounded to 123.46,
bone mass 2.00, and all absent fields still absent. -/
theorem C5_round_trip_witness :
    (load_existing_csv_data (write_measurements_to_csv
        [(5, { weight_kg := some (123456 / 1000), bone_mass_kg := some 2 })])).1 =
      (dictKeys
        [(5, ({ weight_kg := some (123456 / 1000),
                bone_mass_kg := some 2 } : MData))]).toFinset ∧
    dictLookup 5
        (load_existing_csv_data (write_measurements_to_csv
          [(5, { weight_kg := some (123456 / 1000),
                 bone_mass_kg := some 2 })])).2 =
      some (storeRound
        { weight_kg := some (123456 / 1000), bone_mass_kg := some 2 }) :=
  C5_round_trip _ 5 _ (by decide)

/-- C6 (amended): there is no 401 retry: `get_measurements` makes exactly one
request per call, and any status of 400 or above — including 401 — raises an
HTTP error that propagates directly to the caller; the cached session object
is never consulted or invalidated (the request is built from the token
alone). -/
theorem C6_no_retry_on_401 (token : TokenRec) (server : Nat → HttpResponse)
    (h1 : token.access_token.isSome = true) (h2 : 400 ≤ (server 0).status) :
    get_measurements token server =
      (.error (.httpError (server 0).status), 1) := by
  obtain ⟨a, ha⟩ := Option.isSome_iff_exists.mp h1
  simp [get_measurements, make_request, ha, h2]

/-- C6 witness: a server whose first response is a 401 makes the fetch fail
with that HTTP error after exactly one request. -/
theorem C6_no_retry_on_401_witness :
    get_measurements { access_token := some "x" }
        (fun n => if n = 0 then { status := 401, json := none }
                  else { status := 200, json := some [] }) =
      (.error (.httpError 401), 1) :=
  C6_no_retry_on_401 _ _ rfl (by decide)

/-- C6 counterexample: the measurement endpoint answers 401 and a fresh
request would succeed (the next response is a 200 with data), yet the fetch
returns the 401 error after exactly one request — no retry with a fresh
session ever happens. -/
theorem C6_counterexample :
    get_measurements { access_token := some "x" }
        (fun n => if n = 0 then { status := 401, json := none }
                  else { status := 200, json := some [⟨1000, [⟨1, 70, 0⟩]⟩] }) =
      (.error (.httpError 401), 1) ∧
    make_request { access_token := some "x" }
        (fun n => if n = 0 then { status := 401, json := none }
                  else { status := 200, json := some [⟨1000, [⟨1, 70, 0⟩]⟩] }) 1 =
      (.ok [⟨1000, [⟨1, 70, 0⟩]⟩], 2) := by
  decide

/-- C7 (amended): `get_token` never starts interactive authentication — it
raises: with no token in memory and none loadable from storage it fails with
`noToken`; with an expired token whose refresh fails it clears the in-memory
token and fails with `refreshFailed`.  Interactive authentication is the
separate `authenticate` entry point, which does fall back to the full
interactive flow (after clearing the stored token) when its refresh attempt
fails. -/
theorem C7_get_token_raises :
    (∀ file net now, load_token file = none →
        get_token_fn none file net now = (.error .noToken, none, file)) ∧
    (∀ t file net now, is_token_expired (some t) now = true →
        (refresh_token_fn (some t) file net now).1 = .error () →
        get_token_fn (some t) file net now =
          (.error .refreshFailed, none,
            (refresh_token_fn (some t) file net now).2)) ∧
    (∀ file t net ex now, load_token file = some t →
        (refresh_token_fn (some t) file net now).1 = .error () →
        authenticate_fn file net ex now = interactive_auth ex now .missing) := by
  refine ⟨?_, ?_, ?_⟩
  · intro file net now h
    simp [get_token_fn, h]
  · intro t file net now hexp her
    rcases hr : refresh_token_fn (some t) file net now with ⟨r, f2⟩
    cases r with
    | ok tk => rw [hr] at her; simp at her
    | error e => simp [get_token_fn, hexp, hr]
  · intro file t net ex now hl her
    rcases hr : refresh_token_fn (some t) file net now with ⟨r, f2⟩
    cases r with
    | ok tk => rw [hr] at her; simp at her
    | error e => simp [authenticate_fn, hl, hr]

/-- C7 witness: an empty memory slot with a missing token file makes
`get_token` fail with `noToken`; an expired token whose refresh fails makes
it fail with `refreshFailed`; `authenticate` with a stored token whose
refresh fails proceeds to the interactive flow. -/
theorem C7_get_token_raises_witness :
    get_token_fn none .missing none 0 = (.error .noToken, none, .missing) ∧
    get_token_fn (some { refresh_token := some "r", expires_at := some 30 })
        .missing none 100 =
      (.error .refreshFailed, none,
        (refresh_token_fn
          (some { refresh_token := some "r", expires_at := some 30 })
          .missing none 100).2) ∧
    authenticate_fn (.jsonDict { access_token := some "a" }) none none 0 =
      interactive_auth none 0 .missing :=
  ⟨C7_get_token_raises.1 .missing none 0 rfl,
   C7_get_token_raises.2.1 _ .missing none 100 (by decide) rfl,
   C7_get_token_raises.2.2 _ _ none none 0 rfl rfl⟩

/-- C7 counterexample: with no token anywhere, `get_token` fails with an
error rather than transitioning to interactive authentication; with an
expired token and a failing refresh it clears the in-memory slot and fails,
again without any interactive authentication. -/
theorem C7_counterexample :
    get_token_fn none .missing none 0 = (.error .noToken, none, .missing) ∧
    get_token_fn
        (some { access_token := some "a", refresh_token := some "r",
                expires_at := some 30 }) .missing none 100 =
      (.error .refreshFailed, none, .missing) := by
  decide

/-- C8: expiry uses a fixed 60-second lookahead: a token expiring 30 seconds
from now is treated as expired, one expiring 3600 seconds from now is not,
and one without `expires_at` never is; `get_token` returns an unexpired token
unchanged without any refresh, and on an expired token it attempts the
refresh and returns the refreshed, normalised token. -/
theorem C8_token_expiry (t : TokenRec) (now : ℚ) (file : TokenFile)
    (net : Option TokenRec) :
    (t.expires_at = some (now + 30) → is_token_expired (some t) now = true) ∧
    (t.expires_at = some (now + 3600) → is_token_expired (some t) now = false) ∧
    (t.expires_at = none → is_token_expired (some t) now = false) ∧
    (is_token_expired (some t) now = false →
        get_token_fn (some t) file net now = (.ok t, some t, file)) ∧
    (∀ nt s, is_token_expired (some t) now = true → net = some nt →
        t.refresh_token = some s →
        get_token_fn (some t) file net now =
          (.ok (normalizeExpiry nt now), some (normalizeExpiry nt now),
            .jsonDict (normalizeExpiry nt now))) := by
  refine ⟨?_, ?_, ?_, ?_, ?_⟩
  · intro h
    simp [is_token_expired, h]
    linarith
  · intro h
    simp [is_token_expired, h, not_lt]
    linarith
  · intro h
    simp [is_token_expired, h]
  · intro h
    simp [get_token_fn, h]
  · intro nt s hexp hnet hrt
    simp [get_token_fn, hexp, refresh_token_fn, hrt, hnet]

/-- C8 witness: at `now = 0`, `expires_at = 30` is expired, `expires_at =
3600` is not, a token without `expires_at` is not; `get_token` returns the
unexpired token unchanged and refreshes the expired one. -/
theorem C8_token_expiry_witness :
    is_token_expired (some { expires_at := some 30 }) 0 = true ∧
    is_token_expired (some { expires_at := some 3600 }) 0 = false ∧
    is_token_expired (some { }) 0 = false ∧
    get_token_fn (some { access_token := some "a", expires_at := some 3600 })
        .missing none 0 =
      (.ok { access_token := some "a", expires_at := some 3600 },
        some { access_token := some "a", expires_at := some 3600 },
        .missing) ∧
    get_token_fn (some { refresh_token := some "r", expires_at := some 30 })
        .missing (some { access_token := some "b" }) 0 =
      (.ok (normalizeExpiry { access_token := some "b" } 0),
        some (normalizeExpiry { access_token := some "b" } 0),
        .jsonDict (normalizeExpiry { access_token := some "b" } 0)) :=
  ⟨(C8_token_expiry { expires_at := some 30 } 0 .missing none).1 (by norm_num),
   (C8_token_expiry { expires_at := some 3600 } 0 .missing none).2.1 (by norm_num),
   (C8_token_expiry { } 0 .missing none).2.2.1 rfl,
   (C8_token_expiry _ 0 .missing none).2.2.2.1 (by decide),
   (C8_token_expiry _ 0 .missing _).2.2.2.2 _ "r" (by decide) rfl rfl⟩

/-- C9 (amended): `load_token` returns absent exactly when the file is
missing, JSON decoding of its text fails, reading fails with an `IOError`,
or the JSON value is not an object, and on those states nothing is raised; a
JSON object is returned as is, even one lacking `access_token` — that record
is instead rejected by `_make_request`, which raises before making any
network call when the token has no `access_token`.  Parse failure does not
always return absent, though: on a file whose bytes do not decode as text,
the `UnicodeDecodeError` raised by `json.load` is caught by nothing and
propagates to the caller. -/
theorem C9_load_token_validity :
    (∀ f, load_token f = none ↔
        f = TokenFile.missing ∨ f = TokenFile.jsonDecodeError ∨
          f = TokenFile.ioError ∨ f = TokenFile.jsonNonDict) ∧
    (∀ f, load_token_outcome (.text f) = .ok (load_token f)) ∧
    load_token_outcome .undecodableBytes = .error () ∧
    (∀ (t : TokenRec) (server : Nat → HttpResponse) (k : Nat),
        t.access_token = none →
        make_request t server k = (.error .invalidToken, k)) := by
  refine ⟨?_, fun f => rfl, rfl, ?_⟩
  · intro f
    cases f <;> simp [load_token]
  · intro t server k h
    simp [make_request, h]

/-- C9 witness: a missing file loads as absent, and a token record without
`access_token` is rejected by `_make_request` without consuming any
response. -/
theorem C9_load_token_validity_witness :
    load_token TokenFile.missing = none ∧
    make_request { } (fun _ => { status := 200, json := some [] }) 0 =
      (.error .invalidToken, 0) :=
  ⟨(C9_load_token_validity.1 .missing).mpr (Or.inl rfl),
   C9_load_token_validity.2.2.2 { } _ 0 rfl⟩

/-- C9 counterexample: a token file holding the JSON object `{}` — a record
lacking `access_token` — is not treated as absence: `load_token` returns the
record rather than `None`; and a token file with undecodable bytes does not
return absent either — the call raises (the error outcome) instead of
returning. -/
theorem C9_counterexample :
    ({ } : TokenRec).access_token = none ∧
    load_token (TokenFile.jsonDict { }) ≠ none ∧
    load_token_outcome TokenFileContent.undecodableBytes ≠
      Except.ok none := by
  decide

/-- C10: an existing store line whose date parses but which is otherwise
malformed (fewer than six fields, or an unparsable numeric field) puts its
timestamp into the dedup set while contributing no row to the loaded data;
consequently the merge result holds nothing at that timestamp — the fetched
record with the identical timestamp is not added — and the rewritten store
omits the row entirely. -/
theorem C10_malformed_row (lines : List Line) (t : Nat) (cells : List Cell)
    (hmem : Line.row (.ok t) cells ∈ lines.tail)
    (hbad : ∀ cs, Line.row (.ok t) cs ∈ lines.tail → badCells cs) :
    t ∈ (load_existing_csv_data lines).1 ∧
    dictLookup t (load_existing_csv_data lines).2 = none ∧
    ∀ newM : MDict,
      dictLookup t (merge_with_existing_data (some lines) newM) = none ∧
      t ∉ dataDates
          (write_measurements_to_csv
            (merge_with_existing_data (some lines) newM)) := by
  have hlen : ¬ lines.length ≤ 1 := by
    cases lines with
    | nil => simp at hmem
    | cons hd tl =>
        simp only [List.tail_cons] at hmem
        have := List.length_pos.mpr (List.ne_nil_of_mem hmem)
        simp only [List.length_cons]
        omega
  have hload : load_existing_csv_data lines = lines.tail.foldl loadLine (∅, []) := by
    unfold load_existing_csv_data
    rw [if_neg hlen]
  have h1 : t ∈ (load_existing_csv_data lines).1 := by
    rw [hload]
    exact mem_foldl_loadLine_fst hmem _
  have h2 : dictLookup t (load_existing_csv_data lines).2 = none := by
    rw [hload, foldl_loadLine_lookup_of_bad hbad]
    rfl
  refine ⟨h1, h2, fun newM => ?_⟩
  have h3 : dictLookup t (merge_with_existing_data (some lines) newM) = none := by
    have hm : dictLookup t (merge_with_existing_data (some lines) newM) =
        dictLookup t (load_existing_csv_data lines).2 :=
      foldl_mergeStep_lookup_of_mem_ts h1 newM (load_existing_csv_data lines).2
    exact hm.trans h2
  refine ⟨h3, ?_⟩
  rw [dataDates_write_measurements, mem_sortedKeysDesc]
  exact (dictLookup_eq_none_iff _ _).mp h3

/-- C10 witness: a store whose only data line is at timestamp 100 with an
unparsable weight field: 100 enters the dedup set, the loaded data has no
row at 100, a fetched record at 100 is not added by the merge, and the
rewritten store has no row at 100 at all. -/
theorem C10_malformed_row_witness :
    100 ∈ (load_existing_csv_data
        [headerLine, Line.row (.ok 100)
          [.malformed, .empty, .empty, .empty, .empty, .empty]]).1 ∧
    dictLookup 100 (load_existing_csv_data
        [headerLine, Line.row (.ok 100)
          [.malformed, .empty, .empty, .empty, .empty, .empty]]).2 = none ∧
    dictLookup 100 (merge_with_existing_data
        (some [headerLine, Line.row (.ok 100)
          [.malformed, .empty, .empty, .empty, .empty, .empty]])
        [(100, { weight_kg := some 80 })]) = none ∧
    100 ∉ dataDates (write_measurements_to_csv (merge_with_existing_data
        (some [headerLine, Line.row (.ok 100)
          [.malformed, .empty, .empty, .empty, .empty, .empty]])
        [(100, { weight_kg := some 80 })])) := by
  obtain ⟨h1, h2, h3⟩ := C10_malformed_row
    [headerLine, Line.row (.ok 100)
      [.malformed, .empty, .empty, .empty, .empty, .empty]]
    100 [.malformed, .empty, .empty, .empty, .empty, .empty]
    (by decide)
    (by
      intro cs hcs
      simp only [headerLine, List.tail_cons, List.mem_singleton] at hcs
      injection hcs with hdf hcells
      subst hcells
      exact Or.inr rfl)
  exact ⟨h1, h2, (h3 _).1, (h3 _).2⟩

end BodyComp

